import Mathlib

/-!
Verification development for the claude-mcp-server repository.

The definitions below are a shallow embedding of the TypeScript sources:
`src/types.ts` (argument schemas and constants) and `src/tools/handlers.ts`
(the `ClaudeToolHandler` and `ReviewToolHandler` orchestration).  The
in-memory session store (`src/session/storage.ts`) and the subprocess
executor (`src/utils/command.ts`) are not part of the provided sources;
they are modelled from the specification (sections 4.1 and 4.4), as marked
in the corresponding doc comments.  JavaScript strings are modelled by
Lean `String` (character based rather than UTF-16 code-unit based, which
is equivalent on the ASCII payloads all verified properties range over),
and JavaScript truthiness on optional strings, booleans and numbers is
made explicit by the `strTruthy`, `boolTruthy` and `intTruthy` helpers.
-/

set_option autoImplicit false

namespace ClaudeMcp

/-- Truthiness of a JavaScript string: the empty string is falsy. -/
def strNonEmpty (s : String) : Bool := !s.toList.isEmpty

/-- Truthiness of an optional JavaScript string (`undefined` and `""` are falsy). -/
def strTruthy : Option String → Bool
  | none => false
  | some s => strNonEmpty s

/-- Truthiness of an optional JavaScript boolean (`undefined` and `false` are falsy). -/
def boolTruthy : Option Bool → Bool
  | none => false
  | some b => b

/-- Truthiness of an optional JavaScript number (`undefined` and `0` are falsy). -/
def intTruthy : Option Int → Bool
  | none => false
  | some n => !(n = 0)

/-- JSON values, as produced by `JSON.parse` on the subprocess stdout.
Numeric payloads are kept as their source lexeme: no verified property
inspects a numeric field, and JavaScript numbers are floating point,
which is out of scope for the embedding. -/
inductive Json where
  | null : Json
  | bool (b : Bool) : Json
  | num (lexeme : String) : Json
  | str (s : String) : Json
  | arr (elems : List Json) : Json
  | obj (fields : List (String × Json)) : Json

/-- Skip JSON whitespace (space, tab, line feed, carriage return). -/
def skipWs : List Char → List Char
  | [] => []
  | c :: cs => if c = ' ' ∨ c = '\t' ∨ c = '\n' ∨ c = '\r' then skipWs cs else c :: cs

/-- Value of a hexadecimal digit. -/
def hexVal (c : Char) : Option Nat :=
  if '0' ≤ c ∧ c ≤ '9' then some (c.toNat - '0'.toNat)
  else if 'a' ≤ c ∧ c ≤ 'f' then some (c.toNat - 'a'.toNat + 10)
  else if 'A' ≤ c ∧ c ≤ 'F' then some (c.toNat - 'A'.toNat + 10)
  else none

/-- Parse the body of a JSON string literal (after the opening quote),
handling the JSON escape sequences and rejecting raw control characters,
as `JSON.parse` does. -/
def parseStringBody : List Char → List Char → Option (String × List Char)
  | [], _ => none
  | '"' :: rest, acc => some (String.mk acc.reverse, rest)
  | '\\' :: rest, acc =>
    match rest with
    | '"' :: r => parseStringBody r ('"' :: acc)
    | '\\' :: r => parseStringBody r ('\\' :: acc)
    | '/' :: r => parseStringBody r ('/' :: acc)
    | 'b' :: r => parseStringBody r (Char.ofNat 8 :: acc)
    | 'f' :: r => parseStringBody r (Char.ofNat 12 :: acc)
    | 'n' :: r => parseStringBody r ('\n' :: acc)
    | 'r' :: r => parseStringBody r ('\r' :: acc)
    | 't' :: r => parseStringBody r ('\t' :: acc)
    | 'u' :: h1 :: h2 :: h3 :: h4 :: r =>
      match hexVal h1, hexVal h2, hexVal h3, hexVal h4 with
      | some a, some b, some c, some d =>
        parseStringBody r (Char.ofNat (((a * 16 + b) * 16 + c) * 16 + d) :: acc)
      | _, _, _, _ => none
    | _ => none
  | c :: rest, acc => if c.toNat < 32 then none else parseStringBody rest (c :: acc)

/-- Longest prefix of decimal digits and the remaining input. -/
def digitSpan : List Char → List Char × List Char
  | [] => ([], [])
  | c :: rest =>
    if c.isDigit then
      let p := digitSpan rest
      (c :: p.1, p.2)
    else ([], c :: rest)

/-- Parse an optional JSON fraction part, returning its lexeme characters. -/
def parseFracPart : List Char → Option (List Char × List Char)
  | '.' :: r =>
    let p := digitSpan r
    if p.1.isEmpty then none else some ('.' :: p.1, p.2)
  | cs => some ([], cs)

/-- Parse an optional JSON exponent part, returning its lexeme characters. -/
def parseExpPart : List Char → Option (List Char × List Char)
  | [] => some ([], [])
  | e :: r =>
    if e = 'e' ∨ e = 'E' then
      let q := match r with
        | '+' :: rr => (['+'], rr)
        | '-' :: rr => (['-'], rr)
        | _ => (([] : List Char), r)
      let p := digitSpan q.2
      if p.1.isEmpty then none else some (e :: (q.1 ++ p.1), p.2)
    else some ([], e :: r)

/-- Parse a JSON number lexeme (optional minus, integer part without
superfluous leading zero, optional fraction and exponent). -/
def parseNumLex (cs : List Char) : Option (String × List Char) :=
  let q := match cs with
    | '-' :: r => (['-'], r)
    | _ => (([] : List Char), cs)
  match q.2 with
  | [] => none
  | c :: _ =>
    if !c.isDigit then none
    else
      let p := digitSpan q.2
      if 1 < p.1.length ∧ p.1.headD '0' = '0' then none
      else
        match parseFracPart p.2 with
        | none => none
        | some fr =>
          match parseExpPart fr.2 with
          | none => none
          | some ex => some (String.mk (q.1 ++ p.1 ++ fr.1 ++ ex.1), ex.2)

mutual

/-- Fuel-indexed recursive-descent parser for a JSON value.  The fuel only
serves termination; `jsonParse` supplies enough for its input. -/
def parseVal : Nat → List Char → Option (Json × List Char)
  | 0, _ => none
  | Nat.succ fuel, cs =>
    match skipWs cs with
    | 'n' :: 'u' :: 'l' :: 'l' :: rest => some (Json.null, rest)
    | 't' :: 'r' :: 'u' :: 'e' :: rest => some (Json.bool true, rest)
    | 'f' :: 'a' :: 'l' :: 's' :: 'e' :: rest => some (Json.bool false, rest)
    | '"' :: rest =>
      match parseStringBody rest [] with
      | some (s, r) => some (Json.str s, r)
      | none => none
    | '[' :: rest =>
      (match skipWs rest with
       | ']' :: r => some (Json.arr [], r)
       | other => parseArrItems fuel other [])
    | '{' :: rest =>
      (match skipWs rest with
       | '}' :: r => some (Json.obj [], r)
       | other => parseObjItems fuel other [])
    | other =>
      match parseNumLex other with
      | some (lex, r) => some (Json.num lex, r)
      | none => none

/-- Parse the items of a non-empty JSON array. -/
def parseArrItems : Nat → List Char → List Json → Option (Json × List Char)
  | 0, _, _ => none
  | Nat.succ fuel, cs, acc =>
    match parseVal fuel cs with
    | none => none
    | some (v, rest) =>
      match skipWs rest with
      | ',' :: r => parseArrItems fuel r (acc ++ [v])
      | ']' :: r => some (Json.arr (acc ++ [v]), r)
      | _ => none

/-- Parse the members of a non-empty JSON object. -/
def parseObjItems : Nat → List Char → List (String × Json) → Option (Json × List Char)
  | 0, _, _ => none
  | Nat.succ fuel, cs, acc =>
    match skipWs cs with
    | '"' :: rest =>
      match parseStringBody rest [] with
      | none => none
      | some (k, r1) =>
        match skipWs r1 with
        | ':' :: r2 =>
          match parseVal fuel r2 with
          | none => none
          | some (v, r3) =>
            match skipWs r3 with
            | ',' :: r4 => parseObjItems fuel r4 (acc ++ [(k, v)])
            | '}' :: r4 => some (Json.obj (acc ++ [(k, v)]), r4)
            | _ => none
        | _ => none
    | _ => none

end

/-- Model of `JSON.parse` applied to the whole of `s`: a JSON value with
nothing but whitespace around it, `none` on any syntax error (the
`catch`-triggering case in the handlers). -/
def jsonParse (s : String) : Option Json :=
  match parseVal (2 * s.length + 2) s.toList with
  | some (j, rest) => if (skipWs rest).isEmpty then some j else none
  | none => none

/-- JavaScript property access `j.k` on a parsed JSON value: for an object
the value of the field (with the later duplicate winning, as in a
JavaScript object literal), `none` (undefined) otherwise. -/
def Json.getField (j : Json) (k : String) : Option Json :=
  match j with
  | Json.obj fields => ((fields.reverse).find? (fun p => p.1 == k)).map (fun p => p.2)
  | _ => none

/-- A string-typed field of a parsed JSON value, matching the declared
contract of the assistant CLI output (section 6 of the specification:
optional `result` and `session_id` string fields).  Absent fields and
`null` behave exactly as `undefined`/`??` do in the handler; a non-string
payload violates the declared contract and is treated as absent. -/
def jsonStrField (j : Json) (k : String) : Option String :=
  match j.getField k with
  | some (Json.str s) => some s
  | _ => none

/-- One prompt/response pair recorded against a session
(`ConversationTurn` in `src/session/storage.ts`, whose shape is also
given by section 3 of the specification).  Timestamps (`new Date()`) are
modelled as natural numbers. -/
structure ConversationTurn where
  prompt : String
  response : String
  timestamp : Nat
deriving DecidableEq

/-- Modelled from the spec: the per-session record of the Session Store
(section 3 and section 4.1; `src/session/storage.ts` is not among the
provided sources).  `claudeSessionId` is the optional native conversation
handle, named as the handler calls it. -/
structure Session where
  turns : List ConversationTurn
  claudeSessionId : Option String
  createdAt : Nat
  lastAccessedAt : Nat
deriving DecidableEq

/-- Modelled from the spec: the in-memory session store, an association
list keyed by session id with at most one entry per id (section 4.1). -/
structure Store where
  sessions : List (String × Session)
deriving DecidableEq

/-- Lookup of a session record by id in the underlying association list. -/
def findSession : List (String × Session) → String → Option Session
  | [], _ => none
  | (k, s) :: rest, sid => if k = sid then some s else findSession rest sid

/-- Insert-or-replace of a session record, keeping one entry per id. -/
def upsertSession : List (String × Session) → String → Session → List (String × Session)
  | [], sid, s => [(sid, s)]
  | (k, v) :: rest, sid, s =>
    if k = sid then (sid, s) :: rest else (k, v) :: upsertSession rest sid s

/-- Lookup of a session by id. -/
def Store.find (st : Store) (sid : String) : Option Session :=
  findSession st.sessions sid

/-- Modelled from the spec: `ensureSession(id)` is idempotent, inserting an
empty session when absent and only refreshing `lastAccessedAt` otherwise
(section 4.1). -/
def Store.ensureSession (st : Store) (sid : String) (now : Nat) : Store :=
  match st.find sid with
  | some s => ⟨upsertSession st.sessions sid { s with lastAccessedAt := now }⟩
  | none => ⟨upsertSession st.sessions sid ⟨[], none, now, now⟩⟩

/-- Modelled from the spec: `resetSession(id)` clears `turns` and the
native handle, preserving `id` and `createdAt`; a no-op on an unknown id
(section 4.1). -/
def Store.resetSession (st : Store) (sid : String) : Store :=
  match st.find sid with
  | some s => ⟨upsertSession st.sessions sid { s with turns := [], claudeSessionId := none }⟩
  | none => st

/-- Modelled from the spec: `getSession(id)` is a read-only lookup that
refreshes `lastAccessedAt` on a hit (section 4.1); the refreshed store is
returned alongside the result. -/
def Store.getSession (st : Store) (sid : String) (now : Nat) : Option Session × Store :=
  match st.find sid with
  | some s =>
    (some { s with lastAccessedAt := now },
     ⟨upsertSession st.sessions sid { s with lastAccessedAt := now }⟩)
  | none => (none, st)

/-- Modelled from the spec: lookup of the stored native conversation
handle (`getNativeConversationId` in section 4.1, called
`getClaudeSessionId` by the handler). -/
def Store.getClaudeSessionId (st : Store) (sid : String) : Option String :=
  match st.find sid with
  | some s => s.claudeSessionId
  | none => none

/-- Modelled from the spec: storing the native conversation handle
(`setNativeConversationId` in section 4.1); on an unknown id an empty
session holding the handle is created (the specification allows either a
no-op or auto-creation; the handler always ensures the session first). -/
def Store.setClaudeSessionId (st : Store) (sid : String) (h : String) (now : Nat) : Store :=
  match st.find sid with
  | some s => ⟨upsertSession st.sessions sid { s with claudeSessionId := some h }⟩
  | none => ⟨upsertSession st.sessions sid ⟨[], some h, now, now⟩⟩

/-- Modelled from the spec: `addTurn(id, turn)` appends a turn, creating
the session first when missing, and refreshes `lastAccessedAt`
(section 4.1). -/
def Store.addTurn (st : Store) (sid : String) (turn : ConversationTurn) (now : Nat) : Store :=
  match st.find sid with
  | some s =>
    ⟨upsertSession st.sessions sid { s with turns := s.turns ++ [turn], lastAccessedAt := now }⟩
  | none => ⟨upsertSession st.sessions sid ⟨[turn], none, now, now⟩⟩

/-- The turns currently recorded for a session id (empty for an unknown id). -/
def Store.turnsOf (st : Store) (sid : String) : List ConversationTurn :=
  match st.find sid with
  | some s => s.turns
  | none => []

/-- The hardcoded fallback default model (`DEFAULT_CLAUDE_MODEL` in
`src/types.ts`). -/
def DEFAULT_CLAUDE_MODEL : String := "claude-sonnet-4-6"

/-- Output format selector (`z.enum(['text', 'json', 'stream-json'])` in
`ClaudeToolSchema`, `src/types.ts`). -/
inductive OutputFormat where
  | text : OutputFormat
  | json : OutputFormat
  | streamJson : OutputFormat
deriving DecidableEq

/-- The command-line spelling of an output format value. -/
def OutputFormat.toArg : OutputFormat → String
  | OutputFormat.text => "text"
  | OutputFormat.json => "json"
  | OutputFormat.streamJson => "stream-json"

/-- The typed arguments of the execute-assistant tool (`ClaudeToolArgs`
in `src/types.ts`).  `routerBaseUrl` only feeds the per-call environment
override of the executor and `fallbackProviders` is dead schema surface
(section 7 of the specification); neither affects any modelled
behaviour. -/
structure ClaudeToolArgs where
  prompt : String
  sessionId : Option String := none
  resetSession : Option Bool := none
  model : Option String := none
  workingDirectory : Option String := none
  allowedTools : Option String := none
  dangerouslySkipPermissions : Option Bool := none
  outputFormat : Option OutputFormat := none
  maxTurns : Option Int := none
  routerBaseUrl : Option String := none
deriving DecidableEq

/-- The typed arguments of the code-review tool (`ReviewToolArgs` in
`src/types.ts`). -/
structure ReviewToolArgs where
  prompt : Option String := none
  uncommitted : Option Bool := none
  base : Option String := none
  commit : Option String := none
  title : Option String := none
  model : Option String := none
  workingDirectory : Option String := none
deriving DecidableEq

/-- A character admitted by the session id pattern of `ClaudeToolSchema`:
`^[a-zA-Z0-9_-]+$` (`src/types.ts`). -/
def validSessionIdChar (c : Char) : Bool :=
  ('a' ≤ c ∧ c ≤ 'z') ∨ ('A' ≤ c ∧ c ≤ 'Z') ∨ ('0' ≤ c ∧ c ≤ '9') ∨ c = '_' ∨ c = '-'

/-- The session id refinement of `ClaudeToolSchema` (`src/types.ts`):
at most 256 characters and a non-empty match of `^[a-zA-Z0-9_-]+$`. -/
def validSessionId (s : String) : Bool :=
  decide (s.toList.length ≤ 256) && !s.toList.isEmpty && s.toList.all validSessionIdChar

/-- The `maxTurns` refinement of `ClaudeToolSchema` (`src/types.ts`):
a positive integer. -/
def maxTurnsValid : Option Int → Bool
  | none => true
  | some n => decide (0 < n)

/-- Schema validation of the execute-assistant arguments (`Zod` parse in
`ClaudeToolHandler.execute`): the refinements of `ClaudeToolSchema` that
constrain already-typed values.  The URL shape check on `routerBaseUrl`
and the size cap on `fallbackProviders` are not modelled (no verified
property involves them, and neither weakens any proved implication from
acceptance). -/
def claudeArgsValid (a : ClaudeToolArgs) : Bool :=
  (match a.sessionId with
   | none => true
   | some sid => validSessionId sid) && maxTurnsValid a.maxTurns

/-- Model selection (`handlers.ts` lines 88-91 and 366-369):
`model || process.env[CLAUDE_DEFAULT_MODEL_ENV_VAR] || DEFAULT_CLAUDE_MODEL`,
with JavaScript `||` treating the empty string as absent. -/
def selectModel (model envDefault : Option String) : String :=
  if strTruthy model then model.getD ""
  else if strTruthy envDefault then envDefault.getD ""
  else DEFAULT_CLAUDE_MODEL

/-- JavaScript `Array.prototype.join(sep)`. -/
def joinWith (sep : String) : List String → String
  | [] => ""
  | [x] => x
  | x :: xs => x ++ sep ++ joinWith sep xs

/-- JavaScript `String.prototype.slice(0, n)`: the first `n` characters. -/
def sliceStr (s : String) (n : Nat) : String := String.mk (s.toList.take n)

/-- Helper for JavaScript `String.prototype.includes`. -/
def listContainsSub : List Char → List Char → Bool
  | [], pat => pat.isEmpty
  | c :: rest, pat => pat.isPrefixOf (c :: rest) || listContainsSub rest pat

/-- JavaScript `String.prototype.includes(pat)`. -/
def strIncludes (s pat : String) : Bool := listContainsSub s.toList pat.toList

/-- One synthesized context line per selected turn: the body of the
`.map` callback inside `buildEnhancedPrompt` (`handlers.ts` lines
223-232). -/
def turnLine (turn : ConversationTurn) : String :=
  if strIncludes turn.response "function" || strIncludes turn.response "def " then
    "Previous code context: " ++ sliceStr turn.response 200 ++ "..."
  else
    "Context: " ++ turn.prompt ++ " -> " ++ sliceStr turn.response 100 ++ "..."

/-- `ClaudeToolHandler.buildEnhancedPrompt` (`handlers.ts` lines 214-237):
the last two turns (`turns.slice(-2)`) each contribute one line, joined
with newlines and followed by a blank line and `Task: ` plus the new
prompt. -/
def buildEnhancedPrompt (turns : List ConversationTurn) (newPrompt : String) : String :=
  if turns.length = 0 then newPrompt
  else
    let recentTurns := turns.drop (turns.length - 2)
    let contextualInfo := joinWith "\n" (recentTurns.map turnLine)
    contextualInfo ++ "\n\nTask: " ++ newPrompt

/-- The session block of `ClaudeToolHandler.execute` (`handlers.ts`
lines 64-68): ensure the session, then apply any requested reset. -/
def afterSessionSetup (st : Store) (sid : String) (reset : Option Bool) (now : Nat) : Store :=
  let st1 := st.ensureSession sid now
  if boolTruthy reset then st1.resetSession sid else st1

/-- The outcome of the session block: the (possibly updated) store, the
resume decision, the looked-up native handle and the prompt to send. -/
structure SessionPhaseOut where
  store : Store
  useResume : Bool
  claudeSessionId : Option String
  enhancedPrompt : String
deriving DecidableEq

/-- The session block of `ClaudeToolHandler.execute` (`handlers.ts` lines
57-85): with a (truthy) session id, ensure and optionally reset the
session, look up the native handle, and either select resume mode or fall
back to manual context building when prior turns exist. -/
def sessionPhase (st : Store) (now : Nat) (prompt : String)
    (sessionId : Option String) (reset : Option Bool) : SessionPhaseOut :=
  match sessionId with
  | none => ⟨st, false, none, prompt⟩
  | some sid =>
    if sid.toList.isEmpty then ⟨st, false, none, prompt⟩
    else
      let st2 := afterSessionSetup st sid reset now
      let csid := st2.getClaudeSessionId sid
      if strTruthy csid then ⟨st2, true, csid, prompt⟩
      else
        let g := st2.getSession sid now
        match g.1 with
        | some s =>
          if 0 < s.turns.length then ⟨g.2, false, csid, buildEnhancedPrompt s.turns prompt⟩
          else ⟨g.2, false, csid, prompt⟩
        | none => ⟨g.2, false, csid, prompt⟩

/-- Command argument construction of `ClaudeToolHandler.execute`
(`handlers.ts` lines 93-126): resume mode emits the resume flag and only
the output-format and working-directory options; fresh mode additionally
honours max-turns, permission bypass and the tool allowlist, in that
order. -/
def buildCmdArgs (useResume : Bool) (csid : Option String)
    (enhancedPrompt selectedModel : String) (outputFormat : Option OutputFormat)
    (workingDirectory allowedTools : Option String)
    (dangerouslySkipPermissions : Option Bool) (maxTurns : Option Int) : List String :=
  if useResume && strTruthy csid then
    ["-p", enhancedPrompt, "--resume", csid.getD "", "--model", selectedModel]
    ++ ["--output-format", (match outputFormat with
        | some f => f.toArg
        | none => "json")]
    ++ (if strTruthy workingDirectory then ["--cwd", workingDirectory.getD ""] else [])
  else
    ["-p", enhancedPrompt, "--model", selectedModel]
    ++ ["--output-format", (match outputFormat with
        | some f => f.toArg
        | none => "json")]
    ++ (if intTruthy maxTurns then ["--max-turns", toString (maxTurns.getD 0)] else [])
    ++ (if boolTruthy dangerouslySkipPermissions then ["--dangerously-skip-permissions"] else [])
    ++ (if strTruthy allowedTools then ["--allowedTools", allowedTools.getD ""] else [])
    ++ (if strTruthy workingDirectory then ["--cwd", workingDirectory.getD ""] else [])

/-- Buffered or streamed subprocess output (`CommandResult` in
`src/types.ts`). -/
structure CommandResult where
  stdout : String
  stderr : String
deriving DecidableEq

/-- Modelled from the spec: a failed subprocess invocation (non-zero exit
or spawn failure) surfaces as a failure carrying the process output for
diagnostics (section 4.4; `src/utils/command.ts` is not among the
provided sources). -/
structure CommandFailure where
  stdout : String
  stderr : String
deriving DecidableEq

/-- The error taxonomy of `src/errors.ts` as observable at the handler
boundary: validation failures are surfaced directly, anything thrown
during execution is wrapped as a tool-execution failure tagged with the
tool name (section 7 of the specification). -/
inductive ExecError where
  | validation (tool : String) (message : String) : ExecError
  | execution (tool : String) (message : String) : ExecError
deriving DecidableEq

/-- Result parsing of `ClaudeToolHandler.execute` (`handlers.ts` lines
150-158): on parsed stdout prefer the `result` field (`??` falling back
to raw stdout) and extract `session_id`; on a parse failure fall back to
stdout, then stderr, then the placeholder, and extract nothing. -/
def parseOutputPhase (stdout stderr placeholder : String) : String × Option String :=
  match jsonParse stdout with
  | some j =>
    ((match jsonStrField j "result" with
      | some s => s
      | none => stdout),
     jsonStrField j "session_id")
  | none =>
    ((if strNonEmpty stdout then stdout
      else if strNonEmpty stderr then stderr
      else placeholder), none)

/-- Session persistence of `ClaudeToolHandler.execute` (`handlers.ts`
lines 160-176): store a freshly extracted native handle only outside
resume mode, and append the turn (with the caller's original prompt)
only when a session id was supplied. -/
def persistPhase (st : Store) (now : Nat) (activeSessionId : Option String)
    (useResume : Bool) (extracted : Option String) (prompt response : String) : Store :=
  match activeSessionId with
  | none => st
  | some sid =>
    if sid.toList.isEmpty then st
    else
      let st1 := match extracted with
        | some e =>
          if !useResume && strNonEmpty e then st.setClaudeSessionId sid e now else st
        | none => st
      st1.addTurn sid ⟨prompt, response, now⟩ now

/-- Everything observable about one successful execute-assistant call:
the effective model, the resume decision, the looked-up handle, the
prompt sent, the exact subprocess argument list, the final response text
(the text of the single content item of the returned envelope) and the
resulting session store. -/
structure ExecTrace where
  selectedModel : String
  useResume : Bool
  claudeSessionId : Option String
  enhancedPrompt : String
  cmdArgs : List String
  response : String
  store : Store
deriving DecidableEq

/-- The successful path of `ClaudeToolHandler.execute` (`handlers.ts`
lines 44-198) as a function of the environment-configured default model,
the store, the clock, the validated arguments and the subprocess output.
Streaming and buffered execution share this result handling (section 4.4
of the specification); progress notification delivery is not modelled. -/
def claudeRun (envDefault : Option String) (st : Store) (now : Nat)
    (args : ClaudeToolArgs) (r : CommandResult) : ExecTrace :=
  let sp := sessionPhase st now args.prompt args.sessionId args.resetSession
  let selectedModel := selectModel args.model envDefault
  let cmdArgs := buildCmdArgs sp.useResume sp.claudeSessionId sp.enhancedPrompt
    selectedModel args.outputFormat args.workingDirectory args.allowedTools
    args.dangerouslySkipPermissions args.maxTurns
  let parsed := parseOutputPhase r.stdout r.stderr "No output from Claude"
  let finalStore := persistPhase sp.store now args.sessionId sp.useResume parsed.2
    args.prompt parsed.1
  ⟨selectedModel, sp.useResume, sp.claudeSessionId, sp.enhancedPrompt, cmdArgs,
   parsed.1, finalStore⟩

/-- `ClaudeToolHandler.execute` including its error boundary: schema
validation failures surface as `ValidationError` before any subprocess
work, a failing subprocess is wrapped as a `ToolExecutionError`, and a
successful subprocess yields the trace of `claudeRun`. -/
def claudeExecute (envDefault : Option String) (st : Store) (now : Nat)
    (args : ClaudeToolArgs) (res : Except CommandFailure CommandResult) :
    Except ExecError ExecTrace :=
  match claudeArgsValid args, res with
  | false, _ => Except.error (ExecError.validation "claude" "invalid arguments")
  | true, Except.error _ =>
    Except.error (ExecError.execution "claude" "Failed to execute claude command")
  | true, Except.ok r => Except.ok (claudeRun envDefault st now args r)

/-- Everything observable about one successful code-review call. -/
structure ReviewTrace where
  selectedModel : String
  reviewPrompt : String
  cmdArgs : List String
  response : String
deriving DecidableEq

/-- The review validation message (`handlers.ts` lines 358-363). -/
def reviewMutualExclusionMsg : String :=
  "The review prompt cannot be combined with uncommitted=true. Use a base/commit review or omit the prompt."

/-- The successful path of `ReviewToolHandler.execute` (`handlers.ts`
lines 342-426): build the synthetic review prompt from the structured
inputs, the argument list and the response exactly as the handler does.
The review handler never touches session state. -/
def reviewRun (envDefault : Option String) (args : ReviewToolArgs)
    (r : CommandResult) : ReviewTrace :=
  let selectedModel := selectModel args.model envDefault
  let reviewContext :=
    (if boolTruthy args.uncommitted then
      ["Review staged, unstaged, and untracked changes (working tree diff)."] else [])
    ++ (if strTruthy args.base then
      ["Review changes against base branch: " ++ args.base.getD "" ++ "."] else [])
    ++ (if strTruthy args.commit then
      ["Review changes introduced by commit: " ++ args.commit.getD "" ++ "."] else [])
    ++ (if strTruthy args.title then
      ["Review title: " ++ args.title.getD "" ++ "."] else [])
  let reviewPrompt :=
    if strTruthy args.prompt then joinWith " " reviewContext ++ " " ++ args.prompt.getD ""
    else if 0 < reviewContext.length then
      joinWith " " reviewContext ++ " Please provide a detailed code review."
    else "Please review the current code changes and provide feedback."
  let cmdArgs := ["-p", reviewPrompt, "--model", selectedModel, "--output-format", "json"]
    ++ (if strTruthy args.workingDirectory then
      ["--cwd", args.workingDirectory.getD ""] else [])
  let parsed := parseOutputPhase r.stdout r.stderr "No review output from Claude"
  ⟨selectedModel, reviewPrompt, cmdArgs, parsed.1⟩

/-- `ReviewToolHandler.execute` including its error boundary: the
mutual-exclusion validation failure surfaces directly (it is re-thrown
unwrapped by the handler's catch), a failing subprocess is wrapped as a
`ToolExecutionError`, and a successful subprocess yields the trace of
`reviewRun`. -/
def reviewExecute (envDefault : Option String) (args : ReviewToolArgs)
    (res : Except CommandFailure CommandResult) : Except ExecError ReviewTrace :=
  match strTruthy args.prompt && boolTruthy args.uncommitted, res with
  | true, _ => Except.error (ExecError.validation "review" reviewMutualExclusionMsg)
  | false, Except.error _ =>
    Except.error (ExecError.execution "review" "Failed to execute claude review")
  | false, Except.ok r => Except.ok (reviewRun envDefault args r)

/-- Replacing a session record makes it the one found for its id. -/
theorem findSession_upsert_self (l : List (String × Session)) (sid : String) (s : Session) :
    findSession (upsertSession l sid s) sid = some s := by
  induction l with
  | nil => simp [upsertSession, findSession]
  | cons p rest ih =>
    obtain ⟨k, v⟩ := p
    by_cases h : k = sid
    · simp [upsertSession, findSession, h]
    · simp [upsertSession, findSession, h, ih]

/-- Storing a native handle leaves the recorded turns unchanged. -/
theorem turnsOf_setClaudeSessionId (st : Store) (sid h : String) (now : Nat) :
    (st.setClaudeSessionId sid h now).turnsOf sid = st.turnsOf sid := by
  unfold Store.setClaudeSessionId Store.turnsOf Store.find
  cases hf : findSession st.sessions sid <;> simp [hf, findSession_upsert_self]

/-- Storing a native handle makes it the handle found for the id. -/
theorem getClaudeSessionId_setClaudeSessionId (st : Store) (sid h : String) (now : Nat) :
    (st.setClaudeSessionId sid h now).getClaudeSessionId sid = some h := by
  unfold Store.setClaudeSessionId Store.getClaudeSessionId Store.find
  cases hf : findSession st.sessions sid <;> simp [hf, findSession_upsert_self]

/-- Appending a turn appends it to the recorded turns of that id. -/
theorem turnsOf_addTurn (st : Store) (sid : String) (turn : ConversationTurn) (now : Nat) :
    (st.addTurn sid turn now).turnsOf sid = st.turnsOf sid ++ [turn] := by
  unfold Store.addTurn Store.turnsOf Store.find
  cases hf : findSession st.sessions sid <;> simp [hf, findSession_upsert_self]

/-- Appending a turn leaves the stored native handle unchanged. -/
theorem getClaudeSessionId_addTurn (st : Store) (sid : String) (turn : ConversationTurn)
    (now : Nat) :
    (st.addTurn sid turn now).getClaudeSessionId sid = st.getClaudeSessionId sid := by
  unfold Store.addTurn Store.getClaudeSessionId Store.find
  cases hf : findSession st.sessions sid <;> simp [hf, findSession_upsert_self]

/-- The `lastAccessedAt` refresh of a lookup leaves the turns unchanged. -/
theorem turnsOf_getSession_snd (st : Store) (sid : String) (now : Nat) :
    (st.getSession sid now).2.turnsOf sid = st.turnsOf sid := by
  unfold Store.getSession Store.turnsOf Store.find
  cases hf : findSession st.sessions sid <;> simp [hf, findSession_upsert_self]

/-- The `lastAccessedAt` refresh of a lookup leaves the handle unchanged. -/
theorem getClaudeSessionId_getSession_snd (st : Store) (sid : String) (now : Nat) :
    (st.getSession sid now).2.getClaudeSessionId sid = st.getClaudeSessionId sid := by
  unfold Store.getSession Store.getClaudeSessionId Store.find
  cases hf : findSession st.sessions sid <;> simp [hf, findSession_upsert_self]

/-- After the ensure-and-reset block the session exists. -/
theorem find_afterSessionSetup_isSome (st : Store) (sid : String) (reset : Option Bool)
    (now : Nat) : ((afterSessionSetup st sid reset now).find sid).isSome = true := by
  unfold afterSessionSetup Store.ensureSession Store.resetSession Store.find
  cases hf : findSession st.sessions sid <;>
    cases reset <;>
      simp [boolTruthy, hf, findSession_upsert_self] <;>
        rename_i b <;> cases b <;> simp [hf, findSession_upsert_self]

/-- A valid session id is non-empty. -/
theorem validSessionId_ne_empty (s : String) (h : validSessionId s = true) :
    s.toList.isEmpty = false := by
  unfold validSessionId at h
  simp only [Bool.and_eq_true, Bool.not_eq_true'] at h
  exact h.1.2

/-- With a truthy native handle after ensure-and-reset, the session block
selects resume mode, keeps the prompt and does not touch the store
further. -/
theorem sessionPhase_resume (st : Store) (now : Nat) (p sid : String) (reset : Option Bool)
    (hne : sid.toList.isEmpty = false)
    (ht : strTruthy ((afterSessionSetup st sid reset now).getClaudeSessionId sid) = true) :
    sessionPhase st now p (some sid) reset
      = ⟨afterSessionSetup st sid reset now, true,
         (afterSessionSetup st sid reset now).getClaudeSessionId sid, p⟩ := by
  have hd : ¬ sid.data = [] := by simpa using hne
  unfold sessionPhase
  simp [hd, ht]

/-- Without a truthy native handle the session block selects fresh mode,
reports the looked-up handle, and synthesizes context exactly when prior
turns exist. -/
theorem sessionPhase_fresh (st : Store) (now : Nat) (p sid : String) (reset : Option Bool)
    (hne : sid.toList.isEmpty = false)
    (ht : strTruthy ((afterSessionSetup st sid reset now).getClaudeSessionId sid) = false) :
    (sessionPhase st now p (some sid) reset).useResume = false
    ∧ (sessionPhase st now p (some sid) reset).claudeSessionId
        = (afterSessionSetup st sid reset now).getClaudeSessionId sid
    ∧ (sessionPhase st now p (some sid) reset).enhancedPrompt
        = (if 0 < ((afterSessionSetup st sid reset now).turnsOf sid).length then
             buildEnhancedPrompt ((afterSessionSetup st sid reset now).turnsOf sid) p
           else p) := by
  have hsome := find_afterSessionSetup_isSome st sid reset now
  unfold sessionPhase
  simp only [hne, Bool.false_eq_true, if_false, ht]
  cases hf : (afterSessionSetup st sid reset now).find sid with
  | none => rw [hf] at hsome; simp at hsome
  | some s =>
    have hturns : (afterSessionSetup st sid reset now).turnsOf sid = s.turns := by
      unfold Store.turnsOf; rw [hf]
    unfold Store.getSession
    rw [hf]
    by_cases hl : 0 < s.turns.length <;> simp [hl, hturns]

/-- The turns and handle visible for `sid` are unchanged by the session
block itself (only `lastAccessedAt` may be refreshed past the
ensure-and-reset store). -/
theorem sessionPhase_store_obs (st : Store) (now : Nat) (p sid : String) (reset : Option Bool)
    (hne : sid.toList.isEmpty = false) :
    (sessionPhase st now p (some sid) reset).store.turnsOf sid
      = (afterSessionSetup st sid reset now).turnsOf sid
    ∧ (sessionPhase st now p (some sid) reset).store.getClaudeSessionId sid
      = (afterSessionSetup st sid reset now).getClaudeSessionId sid := by
  unfold sessionPhase
  simp only [hne, Bool.false_eq_true, if_false]
  by_cases ht : strTruthy ((afterSessionSetup st sid reset now).getClaudeSessionId sid) = true
  · simp [ht]
  · simp only [Bool.not_eq_true] at ht
    simp only [ht, Bool.false_eq_true, if_false]
    cases hf : ((afterSessionSetup st sid reset now).getSession sid now).1 with
    | none =>
      have h2 : ((afterSessionSetup st sid reset now).getSession sid now).2
          = afterSessionSetup st sid reset now := by
        unfold Store.getSession at hf ⊢
        cases hg : (afterSessionSetup st sid reset now).find sid with
        | none => simp [hg]
        | some s => rw [hg] at hf; simp at hf
      simp [h2]
    | some s =>
      by_cases hl : 0 < s.turns.length <;>
        simp [hf, hl, turnsOf_getSession_snd, getClaudeSessionId_getSession_snd]

/-- Without a session id the session block is the identity. -/
theorem sessionPhase_none (st : Store) (now : Nat) (p : String) (reset : Option Bool) :
    sessionPhase st now p none reset = ⟨st, false, none, p⟩ := rfl

/-- Without a session id nothing is persisted. -/
theorem persistPhase_none (st : Store) (now : Nat) (u : Bool) (ext : Option String)
    (p resp : String) : persistPhase st now none u ext p resp = st := rfl

/-- With a session id, persistence appends exactly one turn carrying the
caller's prompt and the final response text. -/
theorem persistPhase_turns (st : Store) (now : Nat) (sid : String) (u : Bool)
    (ext : Option String) (p resp : String) (hne : sid.toList.isEmpty = false) :
    (persistPhase st now (some sid) u ext p resp).turnsOf sid
      = st.turnsOf sid ++ [⟨p, resp, now⟩] := by
  unfold persistPhase
  simp only [hne, Bool.false_eq_true, if_false]
  cases ext with
  | none => exact turnsOf_addTurn st sid ⟨p, resp, now⟩ now
  | some e =>
    by_cases hc : (!u && strNonEmpty e) = true <;>
      simp [hc, turnsOf_addTurn, turnsOf_setClaudeSessionId]

/-- Outside resume mode a truthy extracted handle is stored. -/
theorem persistPhase_handle_fresh (st : Store) (now : Nat) (sid e : String)
    (p resp : String) (hne : sid.toList.isEmpty = false) (he : strNonEmpty e = true) :
    (persistPhase st now (some sid) false (some e) p resp).getClaudeSessionId sid = some e := by
  have hd : ¬ sid.data = [] := by simpa using hne
  unfold persistPhase
  simp [hd, he, getClaudeSessionId_addTurn, getClaudeSessionId_setClaudeSessionId]

/-- In resume mode the stored handle is untouched by persistence. -/
theorem persistPhase_handle_resume (st : Store) (now : Nat) (sid : String)
    (ext : Option String) (p resp : String) (hne : sid.toList.isEmpty = false) :
    (persistPhase st now (some sid) true ext p resp).getClaudeSessionId sid
      = st.getClaudeSessionId sid := by
  have hd : ¬ sid.data = [] := by simpa using hne
  unfold persistPhase
  cases ext <;> simp [hd, getClaudeSessionId_addTurn]

/-- The effective model of a successful call. -/
theorem claudeRun_selectedModel (env : Option String) (st : Store) (now : Nat)
    (args : ClaudeToolArgs) (r : CommandResult) :
    (claudeRun env st now args r).selectedModel = selectModel args.model env := rfl

/-- The resume decision of a successful call is the session block's. -/
theorem claudeRun_useResume (env : Option String) (st : Store) (now : Nat)
    (args : ClaudeToolArgs) (r : CommandResult) :
    (claudeRun env st now args r).useResume
      = (sessionPhase st now args.prompt args.sessionId args.resetSession).useResume := rfl

/-- The subprocess argument list of a successful call. -/
theorem claudeRun_cmdArgs (env : Option String) (st : Store) (now : Nat)
    (args : ClaudeToolArgs) (r : CommandResult) :
    (claudeRun env st now args r).cmdArgs
      = buildCmdArgs (sessionPhase st now args.prompt args.sessionId args.resetSession).useResume
          (sessionPhase st now args.prompt args.sessionId args.resetSession).claudeSessionId
          (sessionPhase st now args.prompt args.sessionId args.resetSession).enhancedPrompt
          (selectModel args.model env) args.outputFormat args.workingDirectory
          args.allowedTools args.dangerouslySkipPermissions args.maxTurns := rfl

/-- The response text of a successful call. -/
theorem claudeRun_response (env : Option String) (st : Store) (now : Nat)
    (args : ClaudeToolArgs) (r : CommandResult) :
    (claudeRun env st now args r).response
      = (parseOutputPhase r.stdout r.stderr "No output from Claude").1 := rfl

/-- The final store of a successful call. -/
theorem claudeRun_store (env : Option String) (st : Store) (now : Nat)
    (args : ClaudeToolArgs) (r : CommandResult) :
    (claudeRun env st now args r).store
      = persistPhase (sessionPhase st now args.prompt args.sessionId args.resetSession).store
          now args.sessionId
          (sessionPhase st now args.prompt args.sessionId args.resetSession).useResume
          (parseOutputPhase r.stdout r.stderr "No output from Claude").2
          args.prompt (parseOutputPhase r.stdout r.stderr "No output from Claude").1 := rfl

/-- A call succeeds exactly when validation passes and the subprocess
succeeded, and then the result is the trace of `claudeRun`. -/
theorem claudeExecute_ok_iff (env : Option String) (st : Store) (now : Nat)
    (args : ClaudeToolArgs) (res : Except CommandFailure CommandResult) (t : ExecTrace) :
    claudeExecute env st now args res = Except.ok t ↔
      claudeArgsValid args = true
        ∧ ∃ r, res = Except.ok r ∧ t = claudeRun env st now args r := by
  cases hv : claudeArgsValid args <;> cases res <;>
    simp [claudeExecute, hv, eq_comm]

/-- A string equals the empty string exactly when its character list is
empty. -/
theorem str_eq_empty_iff (s : String) : s = "" ↔ s.data = [] := by
  constructor
  · intro h
    subst h
    rfl
  · intro h
    apply String.ext
    rw [h]

/-- A string is truthy exactly when it is not the empty string. -/
theorem strNonEmpty_iff (s : String) : strNonEmpty s = true ↔ ¬ s = "" := by
  constructor
  · intro h he
    rw [he] at h
    exact absurd h (by decide)
  · intro h
    unfold strNonEmpty
    cases he : s.toList.isEmpty
    · rfl
    · exact absurd ((str_eq_empty_iff s).mpr (by simpa using he)) h

/-- An optional string is truthy exactly when it holds a non-empty
string. -/
theorem strTruthy_iff (o : Option String) :
    strTruthy o = true ↔ ∃ s, o = some s ∧ ¬ s = "" := by
  cases o with
  | none => simp [strTruthy]
  | some s =>
    simp only [strTruthy]
    rw [strNonEmpty_iff]
    constructor
    · intro h
      exact ⟨s, rfl, h⟩
    · rintro ⟨u, hu, hne⟩
      injection hu with h2
      rw [h2]
      exact hne

/-- The session id refinement holds whenever validation accepted a call
that supplied a session id. -/
theorem claudeArgsValid_sessionId (args : ClaudeToolArgs) (sid : String)
    (hv : claudeArgsValid args = true) (hsid : args.sessionId = some sid) :
    validSessionId sid = true := by
  unfold claudeArgsValid at hv
  rw [hsid] at hv
  simp only [Bool.and_eq_true] at hv
  exact hv.1

/-- C1: for every execute-assistant call that supplies a session id,
resume mode is selected if and only if a native conversation handle (a
non-empty stored handle string, the JavaScript-truthy lookup the handler
performs) exists for that session after the session has been ensured and
any requested reset has been applied in the same call; otherwise fresh
mode is used. -/
theorem resume_iff_stored_handle
    (env : Option String) (st : Store) (now : Nat) (args : ClaudeToolArgs)
    (res : Except CommandFailure CommandResult) (t : ExecTrace) (sid : String)
    (hok : claudeExecute env st now args res = Except.ok t)
    (hsid : args.sessionId = some sid) :
    t.useResume = true
      ↔ ∃ h, (afterSessionSetup st sid args.resetSession now).getClaudeSessionId sid = some h
             ∧ ¬ h = "" := by
  rcases (claudeExecute_ok_iff env st now args res t).mp hok with ⟨hv, r, hres, ht⟩
  subst ht
  have hvs := claudeArgsValid_sessionId args sid hv hsid
  have hne := validSessionId_ne_empty sid hvs
  rw [claudeRun_useResume, hsid]
  rw [← strTruthy_iff]
  by_cases ht2 : strTruthy ((afterSessionSetup st sid args.resetSession now).getClaudeSessionId
      sid) = true
  · rw [sessionPhase_resume st now args.prompt sid args.resetSession hne ht2]
    simp [ht2]
  · have hfr := sessionPhase_fresh st now args.prompt sid args.resetSession hne
      (by simpa using ht2)
    rw [hfr.1]
    simp only [Bool.false_eq_true, false_iff]
    simpa using ht2

/-- Concrete scenario for the C1 witness: a store holding one session
with a stored native handle. -/
def storeC1 : Store := ⟨[("s1", ⟨[], some "handle-1", 0, 0⟩)]⟩

/-- Concrete arguments for the C1 witness. -/
def argsC1 : ClaudeToolArgs := { prompt := "p1", sessionId := some "s1" }

/-- The trace of the C1 witness call. -/
def traceC1 : ExecTrace := claudeRun none storeC1 3 argsC1 ⟨"", ""⟩

/-- Witness for C1 at a concrete resume-mode call. -/
theorem resume_iff_stored_handle_witness :
    traceC1.useResume = true
      ↔ ∃ h, (afterSessionSetup storeC1 "s1" none 3).getClaudeSessionId "s1" = some h
             ∧ ¬ h = "" :=
  resume_iff_stored_handle none storeC1 3 argsC1 (Except.ok ⟨"", ""⟩) traceC1 "s1" rfl rfl

/-- The prompt actually sent by a successful call. -/
theorem claudeRun_enhancedPrompt (env : Option String) (st : Store) (now : Nat)
    (args : ClaudeToolArgs) (r : CommandResult) :
    (claudeRun env st now args r).enhancedPrompt
      = (sessionPhase st now args.prompt args.sessionId args.resetSession).enhancedPrompt := rfl

/-- C2 as amended: in fresh mode with no optional fields set, the
subprocess argument list is exactly the task (as the value of the `-p`
flag) followed by the model and default output-format flags. -/
theorem fresh_mode_arg_list
    (env : Option String) (st : Store) (now : Nat) (args : ClaudeToolArgs)
    (res : Except CommandFailure CommandResult) (t : ExecTrace)
    (hok : claudeExecute env st now args res = Except.ok t)
    (hfresh : t.useResume = false)
    (hof : args.outputFormat = none) (hmt : args.maxTurns = none)
    (hsp : args.dangerouslySkipPermissions = none) (hat : args.allowedTools = none)
    (hwd : args.workingDirectory = none) :
    t.cmdArgs = ["-p", t.enhancedPrompt, "--model", selectModel args.model env,
                 "--output-format", "json"] := by
  rcases (claudeExecute_ok_iff env st now args res t).mp hok with ⟨hv, r, hres, ht⟩
  subst ht
  rw [claudeRun_useResume] at hfresh
  rw [claudeRun_cmdArgs, claudeRun_enhancedPrompt]
  unfold buildCmdArgs
  rw [hfresh, hof, hmt, hsp, hat, hwd]
  simp [intTruthy, boolTruthy, strTruthy]

/-- Concrete arguments for the C2 counterexample and witness: a fresh
call with no optional fields. -/
def argsC2 : ClaudeToolArgs := { prompt := "hi" }

/-- The trace of the C2 call. -/
def traceC2 : ExecTrace := claudeRun none ⟨[]⟩ 0 argsC2 ⟨"", ""⟩

/-- Counterexample to C2 as stated: at a concrete fresh call with no
optional fields, the argument list is not `[task, "--model", M,
"--output-format", "json"]` — the task text is passed as the value of a
leading `-p` flag. -/
theorem fresh_mode_arg_list_counterexample :
    (claudeExecute none ⟨[]⟩ 0 argsC2 (Except.ok ⟨"", ""⟩)).toOption.map ExecTrace.cmdArgs
      = some ["-p", "hi", "--model", "claude-sonnet-4-6", "--output-format", "json"]
    ∧ ¬ (claudeExecute none ⟨[]⟩ 0 argsC2 (Except.ok ⟨"", ""⟩)).toOption.map ExecTrace.cmdArgs
        = some ["hi", "--model", "claude-sonnet-4-6", "--output-format", "json"] := by
  constructor
  · rfl
  · decide

/-- Witness for the amended C2 at a concrete fresh call. -/
theorem fresh_mode_arg_list_witness :
    traceC2.cmdArgs = ["-p", traceC2.enhancedPrompt, "--model", selectModel none none,
                       "--output-format", "json"] :=
  fresh_mode_arg_list none ⟨[]⟩ 0 argsC2 (Except.ok ⟨"", ""⟩) traceC2
    rfl rfl rfl rfl rfl rfl rfl

/-- C3 as amended: in resume mode the argument list is exactly the task
(as the value of the `-p` flag), the resume flag with the stored native
handle, the model flag and the output-format flag (explicit value or
"json"), optionally followed by the working-directory flag; and the list
is unchanged by any max-turns, permission-bypass or allowlist request
fields. -/
theorem resume_mode_arg_list
    (env : Option String) (st : Store) (now : Nat) (args : ClaudeToolArgs)
    (res : Except CommandFailure CommandResult) (t : ExecTrace) (sid : String)
    (hok : claudeExecute env st now args res = Except.ok t)
    (hsid : args.sessionId = some sid)
    (hresume : t.useResume = true) :
    (∃ H, (afterSessionSetup st sid args.resetSession now).getClaudeSessionId sid = some H
       ∧ ¬ H = ""
       ∧ t.cmdArgs
           = ["-p", args.prompt, "--resume", H, "--model", selectModel args.model env,
              "--output-format",
              (match args.outputFormat with
               | some f => f.toArg
               | none => "json")]
             ++ (if strTruthy args.workingDirectory then
                   ["--cwd", args.workingDirectory.getD ""] else []))
    ∧ (∀ mt d a, maxTurnsValid mt = true →
        claudeExecute env st now
          { args with maxTurns := mt, dangerouslySkipPermissions := d, allowedTools := a } res
          = Except.ok t) := by
  rcases (claudeExecute_ok_iff env st now args res t).mp hok with ⟨hv, r, hres, ht⟩
  subst ht
  subst hres
  have hvs := claudeArgsValid_sessionId args sid hv hsid
  have hne := validSessionId_ne_empty sid hvs
  rw [claudeRun_useResume, hsid] at hresume
  by_cases ht2 : strTruthy ((afterSessionSetup st sid args.resetSession now).getClaudeSessionId
      sid) = true
  · rcases (strTruthy_iff _).mp ht2 with ⟨H, hH, hHne⟩
    have htH : strTruthy (some H) = true := by
      rw [← hH]
      exact ht2
    have hsp := sessionPhase_resume st now args.prompt sid args.resetSession hne ht2
    constructor
    · refine ⟨H, hH, hHne, ?_⟩
      rw [claudeRun_cmdArgs, hsid, hsp]
      unfold buildCmdArgs
      simp only [hH, htH, Bool.true_and, if_true]
      simp [List.append_assoc]
    · intro mt d a hmt
      have hvalid2 : claudeArgsValid
          { args with maxTurns := mt, dangerouslySkipPermissions := d, allowedTools := a }
          = true := by
        unfold claudeArgsValid
        simp [hsid, hvs, hmt]
      have hrun : claudeRun env st now
          { args with maxTurns := mt, dangerouslySkipPermissions := d, allowedTools := a } r
          = claudeRun env st now args r := by
        unfold claudeRun
        simp only [hsid, hsp]
        unfold buildCmdArgs
        simp [hH, htH]
      exact (claudeExecute_ok_iff env st now
          { args with maxTurns := mt, dangerouslySkipPermissions := d, allowedTools := a }
          (Except.ok r) (claudeRun env st now args r)).mpr
        ⟨hvalid2, r, rfl, hrun.symm⟩
  · have hfr := sessionPhase_fresh st now args.prompt sid args.resetSession hne
      (by simpa using ht2)
    rw [hfr.1] at hresume
    simp at hresume

/-- Concrete store for the C3 counterexample and witness: one session
with the stored handle `"h3"`. -/
def storeC3 : Store := ⟨[("s3", ⟨[], some "h3", 0, 0⟩)]⟩

/-- Concrete arguments for the C3 counterexample and witness. -/
def argsC3 : ClaudeToolArgs := { prompt := "task", sessionId := some "s3" }

/-- The trace of the C3 call. -/
def traceC3 : ExecTrace := claudeRun none storeC3 0 argsC3 ⟨"", ""⟩

/-- Counterexample to C3 as stated: at a concrete resume-mode call the
argument list is not `[task, "--resume", H, "--model", M,
"--output-format", F]` — the task text is passed as the value of a
leading `-p` flag. -/
theorem resume_mode_arg_list_counterexample :
    (claudeExecute none storeC3 0 argsC3 (Except.ok ⟨"", ""⟩)).toOption.map ExecTrace.cmdArgs
      = some ["-p", "task", "--resume", "h3", "--model", "claude-sonnet-4-6",
              "--output-format", "json"]
    ∧ ¬ (claudeExecute none storeC3 0 argsC3 (Except.ok ⟨"", ""⟩)).toOption.map
          ExecTrace.cmdArgs
        = some ["task", "--resume", "h3", "--model", "claude-sonnet-4-6",
                "--output-format", "json"] := by
  constructor
  · rfl
  · decide

/-- Witness for the amended C3 at a concrete resume-mode call. -/
theorem resume_mode_arg_list_witness :
    (∃ H, (afterSessionSetup storeC3 "s3" none 0).getClaudeSessionId "s3" = some H
       ∧ ¬ H = ""
       ∧ traceC3.cmdArgs
           = ["-p", "task", "--resume", H, "--model", selectModel none none,
              "--output-format", "json"]
             ++ (if strTruthy none then ["--cwd", (none : Option String).getD ""] else []))
    ∧ (∀ mt d a, maxTurnsValid mt = true →
        claudeExecute none storeC3 0
          { argsC3 with maxTurns := mt, dangerouslySkipPermissions := d, allowedTools := a }
          (Except.ok ⟨"", ""⟩)
          = Except.ok traceC3) :=
  resume_mode_arg_list none storeC3 0 argsC3 (Except.ok ⟨"", ""⟩) traceC3 "s3" rfl rfl rfl

/-- A review call succeeds exactly when the mutual-exclusion check passes
and the subprocess succeeded, and then the result is the trace of
`reviewRun`. -/
theorem reviewExecute_ok_iff (env : Option String) (args : ReviewToolArgs)
    (res : Except CommandFailure CommandResult) (t : ReviewTrace) :
    reviewExecute env args res = Except.ok t ↔
      (strTruthy args.prompt && boolTruthy args.uncommitted) = false
        ∧ ∃ r, res = Except.ok r ∧ t = reviewRun env args r := by
  cases hb : strTruthy args.prompt && boolTruthy args.uncommitted <;> cases res <;>
    simp [reviewExecute, hb, eq_comm]

/-- C4 as amended: the model passed to the subprocess is the explicit
request model when present and non-empty, otherwise the
environment-configured default model when set and non-empty, otherwise
the hardcoded fallback default (JavaScript `||` treats a supplied empty
string exactly like an absent value), and the selected model is what both
the execute-assistant call (in either mode) and the code-review call
pass. -/
theorem model_precedence :
    (∀ (m : String) (e : Option String), ¬ m = "" → selectModel (some m) e = m)
    ∧ (∀ (mo : Option String) (e : String), strTruthy mo = false → ¬ e = "" →
        selectModel mo (some e) = e)
    ∧ (∀ (mo eo : Option String), strTruthy mo = false → strTruthy eo = false →
        selectModel mo eo = DEFAULT_CLAUDE_MODEL)
    ∧ (∀ (env : Option String) (st : Store) (now : Nat) (args : ClaudeToolArgs)
        (res : Except CommandFailure CommandResult) (t : ExecTrace),
        claudeExecute env st now args res = Except.ok t →
        t.selectedModel = selectModel args.model env)
    ∧ (∀ (env : Option String) (args : ReviewToolArgs)
        (res : Except CommandFailure CommandResult) (t : ReviewTrace),
        reviewExecute env args res = Except.ok t →
        t.selectedModel = selectModel args.model env) := by
  refine ⟨?_, ?_, ?_, ?_, ?_⟩
  · intro m e hm
    have h1 : strTruthy (some m) = true := (strNonEmpty_iff m).mpr hm
    simp [selectModel, h1]
  · intro mo e hmo he
    have h1 : strTruthy (some e) = true := (strNonEmpty_iff e).mpr he
    simp [selectModel, hmo, h1]
  · intro mo eo hmo heo
    simp [selectModel, hmo, heo]
  · intro env st now args res t hok
    rcases (claudeExecute_ok_iff env st now args res t).mp hok with ⟨_, r, _, ht⟩
    subst ht
    exact claudeRun_selectedModel env st now args r
  · intro env args res t hok
    rcases (reviewExecute_ok_iff env args res t).mp hok with ⟨_, r, _, ht⟩
    subst ht
    rfl

/-- Counterexample to C4 as stated: a concrete call that supplies the
(present, but empty) explicit model `""` together with an
environment-configured default selects the environment default, not the
supplied model. -/
theorem model_precedence_counterexample :
    (claudeExecute (some "env-model") ⟨[]⟩ 0 { prompt := "w4", model := some "" }
        (Except.ok ⟨"", ""⟩)).toOption.map ExecTrace.selectedModel
      = some "env-model"
    ∧ ¬ (claudeExecute (some "env-model") ⟨[]⟩ 0 { prompt := "w4", model := some "" }
          (Except.ok ⟨"", ""⟩)).toOption.map ExecTrace.selectedModel
        = some "" := by
  constructor
  · rfl
  · decide

/-- Witness for the amended C4 at concrete inputs. -/
theorem model_precedence_witness :
    selectModel (some "model-a") (some "model-b") = "model-a"
    ∧ selectModel none (some "model-b") = "model-b"
    ∧ selectModel none none = DEFAULT_CLAUDE_MODEL
    ∧ (claudeRun none ⟨[]⟩ 0 { prompt := "w4b" } ⟨"", ""⟩).selectedModel
        = selectModel none none
    ∧ (reviewRun none { base := some "main" } ⟨"", ""⟩).selectedModel
        = selectModel none none :=
  ⟨model_precedence.1 "model-a" (some "model-b") (by decide),
   model_precedence.2.1 none "model-b" rfl (by decide),
   model_precedence.2.2.1 none none rfl rfl,
   model_precedence.2.2.2.1 none ⟨[]⟩ 0 { prompt := "w4b" } (Except.ok ⟨"", ""⟩)
     (claudeRun none ⟨[]⟩ 0 { prompt := "w4b" } ⟨"", ""⟩) rfl,
   model_precedence.2.2.2.2 none { base := some "main" } (Except.ok ⟨"", ""⟩)
     (reviewRun none { base := some "main" } ⟨"", ""⟩) rfl⟩

/-- C5: when the subprocess stdout is the JSON object
`{"result": X, "session_id": Y}` (for a non-empty handle `Y`), the final
response text is `X`; a turn (carrying the caller's prompt and `X`) is
persisted exactly when a session id was supplied; and the native handle
`Y` is stored exactly when a session id was supplied and the call ran in
fresh mode, while resume mode keeps the existing handle. -/
theorem structured_output_persistence
    (env : Option String) (st : Store) (now : Nat) (args : ClaudeToolArgs)
    (res : Except CommandFailure CommandResult) (t : ExecTrace) (r : CommandResult)
    (X Y : String)
    (hok : claudeExecute env st now args res = Except.ok t)
    (hres : res = Except.ok r)
    (hparse : jsonParse r.stdout
      = some (Json.obj [("result", Json.str X), ("session_id", Json.str Y)]))
    (hY : ¬ Y = "") :
    t.response = X
    ∧ (args.sessionId = none → t.store = st)
    ∧ (∀ sid, args.sessionId = some sid →
        t.store.turnsOf sid
          = (afterSessionSetup st sid args.resetSession now).turnsOf sid
            ++ [⟨args.prompt, X, now⟩]
        ∧ (t.useResume = false → t.store.getClaudeSessionId sid = some Y)
        ∧ (t.useResume = true →
            t.store.getClaudeSessionId sid
              = (afterSessionSetup st sid args.resetSession now).getClaudeSessionId sid)) := by
  rcases (claudeExecute_ok_iff env st now args res t).mp hok with ⟨hv, r2, hres2, ht⟩
  rw [hres] at hres2
  injection hres2 with hr2
  subst hr2
  subst ht
  have hpp : parseOutputPhase r.stdout r.stderr "No output from Claude" = (X, some Y) := by
    unfold parseOutputPhase
    rw [hparse]
    rfl
  refine ⟨?_, ?_, ?_⟩
  · rw [claudeRun_response, hpp]
  · intro hnone
    rw [claudeRun_store, hnone]
    rfl
  · intro sid hsid
    have hvs := claudeArgsValid_sessionId args sid hv hsid
    have hne := validSessionId_ne_empty sid hvs
    have hobs := sessionPhase_store_obs st now args.prompt sid args.resetSession hne
    refine ⟨?_, ?_, ?_⟩
    · rw [claudeRun_store, hsid, hpp]
      rw [persistPhase_turns _ now sid _ _ _ _ hne]
      rw [hobs.1]
    · intro hfr
      rw [claudeRun_useResume, hsid] at hfr
      rw [claudeRun_store, hsid, hpp, hfr]
      exact persistPhase_handle_fresh _ now sid Y args.prompt X hne ((strNonEmpty_iff Y).mpr hY)
    · intro hru
      rw [claudeRun_useResume, hsid] at hru
      rw [claudeRun_store, hsid, hpp, hru]
      rw [persistPhase_handle_resume _ now sid _ _ _ hne]
      exact hobs.2

/-- Concrete arguments for the C5 witness. -/
def argsC5 : ClaudeToolArgs := { prompt := "q5", sessionId := some "s5" }

/-- Concrete structured subprocess output for the C5 witness. -/
def resultC5 : CommandResult :=
  ⟨"\x7b\"result\":\"ok\",\"session_id\":\"abc\"\x7d", ""⟩

/-- The trace of the C5 witness call (fresh mode on an empty store). -/
def traceC5 : ExecTrace := claudeRun none ⟨[]⟩ 7 argsC5 resultC5

/-- Witness for C5 at a concrete fresh-mode call with structured
output. -/
theorem structured_output_persistence_witness :
    traceC5.response = "ok"
    ∧ (argsC5.sessionId = none → traceC5.store = ⟨[]⟩)
    ∧ (∀ sid, argsC5.sessionId = some sid →
        traceC5.store.turnsOf sid
          = (afterSessionSetup ⟨[]⟩ sid argsC5.resetSession 7).turnsOf sid
            ++ [⟨argsC5.prompt, "ok", 7⟩]
        ∧ (traceC5.useResume = false → traceC5.store.getClaudeSessionId sid = some "abc")
        ∧ (traceC5.useResume = true →
            traceC5.store.getClaudeSessionId sid
              = (afterSessionSetup ⟨[]⟩ sid argsC5.resetSession 7).getClaudeSessionId sid)) :=
  structured_output_persistence none ⟨[]⟩ 7 argsC5 (Except.ok resultC5) traceC5 resultC5
    "ok" "abc" rfl rfl rfl (by decide)

/-- C6: failure to parse the subprocess stdout as JSON never produces an
error (the parse phase is total and the fallback is taken silently): the
final response text is raw stdout if non-empty, else raw stderr if
non-empty, else the literal no-output placeholder; in particular empty
stdout and empty stderr yield the placeholder. -/
theorem parse_failure_fallback
    (env : Option String) (st : Store) (now : Nat) (args : ClaudeToolArgs)
    (res : Except CommandFailure CommandResult) (t : ExecTrace) (r : CommandResult)
    (hok : claudeExecute env st now args res = Except.ok t)
    (hres : res = Except.ok r)
    (hfail : jsonParse r.stdout = none) :
    t.response = (if ¬ r.stdout = "" then r.stdout
                  else if ¬ r.stderr = "" then r.stderr
                  else "No output from Claude")
    ∧ (r.stdout = "" → r.stderr = "" → t.response = "No output from Claude") := by
  rcases (claudeExecute_ok_iff env st now args res t).mp hok with ⟨hv, r2, hres2, ht⟩
  rw [hres] at hres2
  injection hres2 with hr2
  subst hr2
  subst ht
  have hresp : (claudeRun env st now args r).response
      = (if strNonEmpty r.stdout = true then r.stdout
         else if strNonEmpty r.stderr = true then r.stderr
         else "No output from Claude") := by
    rw [claudeRun_response]
    unfold parseOutputPhase
    rw [hfail]
  constructor
  · rw [hresp]
    by_cases h1 : r.stdout = ""
    · have hb1 : strNonEmpty r.stdout = false := by
        rw [h1]
        decide
      rw [hb1]
      by_cases h2 : r.stderr = ""
      · have hb2 : strNonEmpty r.stderr = false := by
          rw [h2]
          decide
        rw [hb2]
        simp [h1, h2]
      · have hb2 : strNonEmpty r.stderr = true := (strNonEmpty_iff _).mpr h2
        rw [hb2]
        simp [h1, h2]
    · have hb1 : strNonEmpty r.stdout = true := (strNonEmpty_iff _).mpr h1
      rw [hb1]
      simp [h1]
  · intro h1 h2
    rw [hresp, h1, h2]
    decide

/-- Concrete arguments for the C6 witness. -/
def argsC6 : ClaudeToolArgs := { prompt := "q6" }

/-- The trace of the C6 witness call: empty stdout and stderr. -/
def traceC6 : ExecTrace := claudeRun none ⟨[]⟩ 0 argsC6 ⟨"", ""⟩

/-- Witness for C6 at a concrete call whose subprocess produced no
output at all. -/
theorem parse_failure_fallback_witness :
    traceC6.response = (if ¬ "" = "" then ""
                        else if ¬ "" = "" then ""
                        else "No output from Claude")
    ∧ ("" = "" → "" = "" → traceC6.response = "No output from Claude") :=
  parse_failure_fallback none ⟨[]⟩ 0 argsC6 (Except.ok ⟨"", ""⟩) traceC6 ⟨"", ""⟩
    rfl rfl rfl

/-- Truncation produces at most the requested number of characters. -/
theorem sliceStr_length_le (s : String) (n : Nat) : (sliceStr s n).length ≤ n := by
  have h1 : (sliceStr s n).length = (s.toList.take n).length := rfl
  rw [h1, List.length_take]
  exact Nat.min_le_left n s.toList.length

/-- Each synthesized context line is bounded by a constant plus the
length of that turn's recorded prompt (the response contribution is
truncated to at most 200 or 100 characters). -/
theorem turnLine_length_le (t : ConversationTurn) :
    (turnLine t).length ≤ 226 + t.prompt.length := by
  unfold turnLine
  by_cases h : (strIncludes t.response "function" || strIncludes t.response "def ") = true
  · rw [if_pos h]
    rw [String.length_append, String.length_append]
    have := sliceStr_length_le t.response 200
    have h23 : ("Previous code context: ").length = 23 := rfl
    have h3 : ("...").length = 3 := rfl
    omega
  · rw [if_neg h]
    rw [String.length_append, String.length_append, String.length_append,
      String.length_append]
    have := sliceStr_length_le t.response 100
    have h9 : ("Context: ").length = 9 := rfl
    have h4 : (" -> ").length = 4 := rfl
    have h3 : ("...").length = 3 := rfl
    omega

/-- On a non-empty turn list the synthesized prompt is the joined lines
of the last two turns followed by the task suffix. -/
theorem buildEnhancedPrompt_eq (turns : List ConversationTurn) (p : String)
    (hne : ¬ turns = []) :
    buildEnhancedPrompt turns p
      = joinWith "\n" ((turns.drop (turns.length - 2)).map turnLine) ++ "\n\nTask: " ++ p := by
  have h0 : ¬ turns.length = 0 := fun h => hne (List.length_eq_zero.mp h)
  unfold buildEnhancedPrompt
  rw [if_neg h0]

/-- C7: the synthesized prompt is built from only the last two turns, and
its length is bounded by the new prompt, the prompts of those (at most
two) turns and a fixed constant — independent of how long prior responses
were and of how many prior turns exist. -/
theorem context_window_bound (turns : List ConversationTurn) (p : String)
    (hne : ¬ turns = []) :
    buildEnhancedPrompt turns p = buildEnhancedPrompt (turns.drop (turns.length - 2)) p
    ∧ (buildEnhancedPrompt turns p).length
        ≤ p.length + ((turns.drop (turns.length - 2)).map (fun tu => tu.prompt.length)).sum
            + 500 := by
  have hlen : (turns.drop (turns.length - 2)).length = turns.length - (turns.length - 2) :=
    List.length_drop _ _
  have hpos : 0 < turns.length := by
    cases turns with
    | nil => exact absurd rfl hne
    | cons a l => simp
  have hle : (turns.drop (turns.length - 2)).length ≤ 2 := by omega
  have hdne : ¬ turns.drop (turns.length - 2) = [] := by
    intro h
    rw [h] at hlen
    simp at hlen
    omega
  constructor
  · rw [buildEnhancedPrompt_eq turns p hne,
      buildEnhancedPrompt_eq (turns.drop (turns.length - 2)) p hdne]
    have h2 : (turns.drop (turns.length - 2)).length - 2 = 0 := by omega
    rw [h2, List.drop_zero]
  · rw [buildEnhancedPrompt_eq turns p hne]
    rw [String.length_append, String.length_append]
    have h8 : ("\n\nTask: ").length = 8 := rfl
    cases hd : turns.drop (turns.length - 2) with
    | nil => exact absurd hd hdne
    | cons a l2 =>
      cases l2 with
      | nil =>
        have hj : joinWith "\n" ([a].map turnLine) = turnLine a := rfl
        rw [hj]
        have := turnLine_length_le a
        simp only [List.map_cons, List.map_nil, List.sum_cons, List.sum_nil]
        omega
      | cons b l3 =>
        cases l3 with
        | nil =>
          have hj : joinWith "\n" ([a, b].map turnLine)
              = turnLine a ++ "\n" ++ turnLine b := rfl
          rw [hj]
          rw [String.length_append, String.length_append]
          have ha := turnLine_length_le a
          have hb := turnLine_length_le b
          have h1 : ("\n").length = 1 := rfl
          simp only [List.map_cons, List.map_nil, List.sum_cons, List.sum_nil]
          omega
        | cons c l4 =>
          exfalso
          rw [hd] at hle
          simp at hle

/-- Concrete turn list for the C7 witness: three turns with long
responses, of which only the last two contribute. -/
def turnsC7 : List ConversationTurn :=
  [⟨"first", String.mk (List.replicate 400 'x'), 0⟩,
   ⟨"second", String.mk (List.replicate 400 'y'), 1⟩,
   ⟨"third", "def f", 2⟩]

/-- Witness for C7 at a concrete three-turn history. -/
theorem context_window_bound_witness :
    buildEnhancedPrompt turnsC7 "go"
        = buildEnhancedPrompt (turnsC7.drop (turnsC7.length - 2)) "go"
    ∧ (buildEnhancedPrompt turnsC7 "go").length
        ≤ ("go").length + ((turnsC7.drop (turnsC7.length - 2)).map
            (fun tu => tu.prompt.length)).sum + 500 :=
  context_window_bound turnsC7 "go" (by decide)

/-- C8: a code-review request carrying both a (non-empty) free-text
prompt and the uncommitted-changes flag fails with a validation error
(never wrapped as an execution error, for any subprocess outcome), while
a request without the flag, or without a truthy prompt, is accepted. -/
theorem review_mutual_exclusion :
    (∀ (env : Option String) (args : ReviewToolArgs)
        (res : Except CommandFailure CommandResult) (p : String),
        args.prompt = some p → ¬ p = "" → args.uncommitted = some true →
        reviewExecute env args res
          = Except.error (ExecError.validation "review" reviewMutualExclusionMsg))
    ∧ (∀ (env : Option String) (args : ReviewToolArgs) (r : CommandResult),
        boolTruthy args.uncommitted = false →
        ∃ t, reviewExecute env args (Except.ok r) = Except.ok t)
    ∧ (∀ (env : Option String) (args : ReviewToolArgs) (r : CommandResult),
        strTruthy args.prompt = false →
        ∃ t, reviewExecute env args (Except.ok r) = Except.ok t) := by
  refine ⟨?_, ?_, ?_⟩
  · intro env args res p hp hpne hu
    have h1 : strTruthy args.prompt = true := by
      rw [hp]
      exact (strNonEmpty_iff p).mpr hpne
    have h2 : boolTruthy args.uncommitted = true := by
      rw [hu]
      rfl
    have hg : (strTruthy args.prompt && boolTruthy args.uncommitted) = true := by
      rw [h1, h2]
      rfl
    cases res <;> simp [reviewExecute, hg]
  · intro env args r h
    refine ⟨reviewRun env args r, ?_⟩
    have hg : (strTruthy args.prompt && boolTruthy args.uncommitted) = false := by
      rw [h, Bool.and_false]
    simp [reviewExecute, hg]
  · intro env args r h
    refine ⟨reviewRun env args r, ?_⟩
    have hg : (strTruthy args.prompt && boolTruthy args.uncommitted) = false := by
      rw [h, Bool.false_and]
    simp [reviewExecute, hg]

/-- Witness for C8 at concrete review calls: both supplied is rejected
with the validation error; each alone is accepted. -/
theorem review_mutual_exclusion_witness :
    reviewExecute none { prompt := some "check this", uncommitted := some true }
        (Except.ok ⟨"", ""⟩)
      = Except.error (ExecError.validation "review" reviewMutualExclusionMsg)
    ∧ (∃ t, reviewExecute none { prompt := some "check this" } (Except.ok ⟨"", ""⟩)
        = Except.ok t)
    ∧ (∃ t, reviewExecute none { uncommitted := some true } (Except.ok ⟨"", ""⟩)
        = Except.ok t) :=
  ⟨review_mutual_exclusion.1 none { prompt := some "check this", uncommitted := some true }
      (Except.ok ⟨"", ""⟩) "check this" rfl (by decide) rfl,
   review_mutual_exclusion.2.1 none { prompt := some "check this" } ⟨"", ""⟩ rfl,
   review_mutual_exclusion.2.2 none { uncommitted := some true } ⟨"", ""⟩ rfl⟩

/-- C9: a supplied session id is accepted only if it is at most 256
characters and matches `^[a-zA-Z0-9_-]+$`; any other session id fails
with a validation error for every subprocess outcome — that is, before
any subprocess is invoked. -/
theorem session_id_validation
    (env : Option String) (st : Store) (now : Nat) (args : ClaudeToolArgs)
    (res : Except CommandFailure CommandResult) (sid : String)
    (hsid : args.sessionId = some sid) :
    (∀ t, claudeExecute env st now args res = Except.ok t → validSessionId sid = true)
    ∧ (validSessionId sid = false →
        claudeExecute env st now args res
          = Except.error (ExecError.validation "claude" "invalid arguments")) := by
  constructor
  · intro t hok
    rcases (claudeExecute_ok_iff env st now args res t).mp hok with ⟨hv, _, _, _⟩
    exact claudeArgsValid_sessionId args sid hv hsid
  · intro h
    have hv : claudeArgsValid args = false := by
      unfold claudeArgsValid
      rw [hsid]
      simp [h]
    cases res <;> simp [claudeExecute, hv]

/-- Witness for C9 at a concrete malformed session id (it contains a
space): validation fails and the call reports the validation error. -/
theorem session_id_validation_witness :
    validSessionId "bad id" = false
    ∧ claudeExecute none ⟨[]⟩ 0 { prompt := "q9", sessionId := some "bad id" }
        (Except.ok ⟨"", ""⟩)
      = Except.error (ExecError.validation "claude" "invalid arguments") :=
  ⟨by decide,
   (session_id_validation none ⟨[]⟩ 0 { prompt := "q9", sessionId := some "bad id" }
     (Except.ok ⟨"", ""⟩) "bad id" rfl).2 (by decide)⟩

/-- C10: the turn appended to the session records the caller's original
prompt (together with the final response text), never the synthesized
context-enhanced prompt sent to the subprocess. -/
theorem original_prompt_persisted
    (env : Option String) (st : Store) (now : Nat) (args : ClaudeToolArgs)
    (res : Except CommandFailure CommandResult) (t : ExecTrace) (r : CommandResult)
    (sid : String)
    (hok : claudeExecute env st now args res = Except.ok t)
    (hres : res = Except.ok r)
    (hsid : args.sessionId = some sid) :
    t.store.turnsOf sid
      = (afterSessionSetup st sid args.resetSession now).turnsOf sid
        ++ [⟨args.prompt, t.response, now⟩] := by
  rcases (claudeExecute_ok_iff env st now args res t).mp hok with ⟨hv, r2, hres2, ht⟩
  rw [hres] at hres2
  injection hres2 with hr2
  subst hr2
  subst ht
  have hvs := claudeArgsValid_sessionId args sid hv hsid
  have hne := validSessionId_ne_empty sid hvs
  have hobs := sessionPhase_store_obs st now args.prompt sid args.resetSession hne
  rw [claudeRun_store, claudeRun_response, hsid]
  rw [persistPhase_turns _ now sid _ _ _ _ hne]
  rw [hobs.1]

/-- Concrete store for the C10 witness: a session with one prior turn and
no native handle, so the subprocess prompt is context-enhanced. -/
def storeC10 : Store := ⟨[("s10", ⟨[⟨"old", "resp", 0⟩], none, 0, 0⟩)]⟩

/-- Concrete arguments for the C10 witness. -/
def argsC10 : ClaudeToolArgs := { prompt := "new task", sessionId := some "s10" }

/-- The trace of the C10 witness call. -/
def traceC10 : ExecTrace := claudeRun none storeC10 9 argsC10 ⟨"out", ""⟩

/-- Witness for C10 at a concrete call whose subprocess prompt differs
from the caller's prompt: the persisted turn still records the caller's
prompt. -/
theorem original_prompt_persisted_witness :
    ¬ traceC10.enhancedPrompt = argsC10.prompt
    ∧ traceC10.store.turnsOf "s10"
        = (afterSessionSetup storeC10 "s10" none 9).turnsOf "s10"
          ++ [⟨argsC10.prompt, traceC10.response, 9⟩] :=
  ⟨by decide,
   original_prompt_persisted none storeC10 9 argsC10 (Except.ok ⟨"out", ""⟩) traceC10
     ⟨"out", ""⟩ "s10" rfl rfl rfl⟩

end ClaudeMcp
